import Mathlib

/-!
Verification of the code-evaluator service (src/app) against its
specification.  The Python source is shallowly embedded: pure string
manipulation is translated function by function; the dynamic parts
(exec of user code, json.loads, psutil sampling, process lifecycle)
are modelled by explicit data describing their outcomes, so that every
embedded function is executable and every claim can be evaluated on
concrete inputs.
-/

namespace CodeEval

/-! ## Python string primitives

`str.strip`, `str.split("\n")` and `str.split()` as used by
`get_stripped_lines` and `convert_line_to_decimals` in
src/app/exec_py_test.py.  Whitespace is the ASCII whitespace set that
Python's `str.strip()` removes. -/

def pyWs (c : Char) : Bool :=
  c == ' ' || c == '\t' || c == '\n' || c == '\r' || c == '\x0b' || c == '\x0c'

/-- Characters of `l` with the leading and trailing runs of whitespace
removed; the `List Char` body of Python's `str.strip()`. -/
def stripChars (l : List Char) : List Char :=
  ((l.dropWhile pyWs).reverse.dropWhile pyWs).reverse

/-- Python `str.strip()`. -/
def pyStrip (s : String) : String := ⟨stripChars s.data⟩

/-- Python `str.split("\n")`: split at every newline, keeping empty
pieces; the result is never empty (`"".split("\n") == [""]`). -/
def splitNl : List Char → List (List Char)
  | [] => [[]]
  | c :: rest =>
    if c = '\n' then [] :: splitNl rest
    else
      match splitNl rest with
      | [] => [[c]]
      | g :: gs => (c :: g) :: gs

/-- Helper for `pySplitWs`: accumulates the current token (reversed). -/
def splitWsAux : List Char → List Char → List (List Char)
  | [], acc => if acc.isEmpty then [] else [acc.reverse]
  | c :: rest, acc =>
    if pyWs c then
      if acc.isEmpty then splitWsAux rest [] else acc.reverse :: splitWsAux rest []
    else splitWsAux rest (c :: acc)

/-- Python `str.split()` with no argument: split on runs of whitespace,
discarding empty tokens. -/
def pySplitWs (l : List Char) : List (List Char) := splitWsAux l []

/-- `get_stripped_lines` (src/app/exec_py_test.py, lines 342-346):
strip the whole string, split on newlines, strip every line. -/
def get_stripped_lines (s : String) : List String :=
  (splitNl (stripChars s.data)).map (fun l => ⟨stripChars l⟩)

/-! ## Decimal model

`convert_line_to_decimals` builds `decimal.Decimal` values from
whitespace-separated tokens.  A `Decimal` constructed from a numeric
string is modelled by its exact value: a rational for finite values,
a signed infinity, or NaN.  `Decimal.__eq__` is exact value equality
(`Decimal("1.0") == Decimal("1")`), with NaN unequal to everything. -/

inductive PyDecimal
  | finite (q : ℚ)
  | posInf
  | negInf
  | nan
deriving DecidableEq

/-- Value of a coefficient `m` scaled by `10 ^ e`. -/
def decValue (m : Int) (e : Int) : ℚ :=
  if 0 ≤ e then ((m * 10 ^ e.toNat : Int) : ℚ) else mkRat m (10 ^ (-e).toNat)

def charDigit (c : Char) : Nat := c.toNat - 48

def natOfDigits (l : List Char) : Nat :=
  l.foldl (fun a c => a * 10 + charDigit c) 0

def allDigits (l : List Char) : Bool := l.all Char.isDigit

/-- Split a mantissa at the first `.`; fails when a second dot occurs. -/
def splitDot : List Char → Option (List Char × List Char)
  | [] => some ([], [])
  | c :: rest =>
    if c = '.' then
      if rest.contains '.' then none else some ([], rest)
    else
      match splitDot rest with
      | some (i, f) => some (c :: i, f)
      | none => none

/-- Split at the first exponent indicator `e`/`E`. -/
def splitExp : List Char → List Char × Option (List Char)
  | [] => ([], none)
  | c :: rest =>
    if c = 'e' ∨ c = 'E' then ([], some rest)
    else
      let (m, ex) := splitExp rest
      (c :: m, ex)

/-- Parse an optional sign; returns (negative?, rest). -/
def parseSign : List Char → Bool × List Char
  | '+' :: rest => (false, rest)
  | '-' :: rest => (true, rest)
  | l => (false, l)

/-- Parse an exponent: optional sign followed by at least one digit. -/
def parseExpDigits (l : List Char) : Option Int :=
  let (neg, ds) := parseSign l
  if ds.isEmpty || !allDigits ds then none
  else some (if neg then -(natOfDigits ds : Int) else (natOfDigits ds : Int))

/-- Parse the decimal-part with optional exponent-part of the
`decimal` numeric-string grammar. -/
def parseFinite (neg : Bool) (l : List Char) : Option PyDecimal :=
  let (mant, exOpt) := splitExp l
  let expVal : Option Int :=
    match exOpt with
    | none => some 0
    | some ex => parseExpDigits ex
  match expVal with
  | none => none
  | some e =>
    match splitDot mant with
    | none => none
    | some (ip, fp) =>
      if (ip.isEmpty && fp.isEmpty) || !allDigits ip || !allDigits fp then none
      else
        let coeff : Int := (natOfDigits (ip ++ fp) : Int)
        let signed : Int := if neg then -coeff else coeff
        some (.finite (decValue signed (e - fp.length)))

/-- `decimal.Decimal(str)` on an already whitespace-free token: strip,
drop underscores, optional sign, then either a special value
(`Infinity`/`Inf`, `NaN`/`sNaN`, case-insensitive) or a finite
decimal-part with optional exponent.  Returns `none` when the token is
not a valid numeric string (the constructor raises
`InvalidOperation`). -/
def pyDecimalOfChars (l : List Char) : Option PyDecimal :=
  let cs := (stripChars l).filter (· ≠ '_')
  let (neg, rest) := parseSign cs
  let low := rest.map Char.toLower
  if low = "inf".data ∨ low = "infinity".data then
    some (if neg then .negInf else .posInf)
  else if ("nan".data).isPrefixOf low ∧ allDigits (low.drop 3) then
    some .nan
  else if ("snan".data).isPrefixOf low ∧ allDigits (low.drop 4) then
    some .nan
  else
    parseFinite neg rest

/-- `Decimal.__eq__`: exact value comparison; NaN compares unequal to
everything, including itself. -/
def pyDecEq : PyDecimal → PyDecimal → Bool
  | .finite a, .finite b => decide (a = b)
  | .posInf, .posInf => true
  | .negInf, .negInf => true
  | _, _ => false

/-- Python `==` on two lists of Decimals (length check, then
element-wise `==`). -/
def decListEq : List PyDecimal → List PyDecimal → Bool
  | [], [] => true
  | a :: as', b :: bs' => pyDecEq a b && decListEq as' bs'
  | _, _ => false

/-- `convert_line_to_decimals` (src/app/exec_py_test.py, lines
334-339): `Decimal(elem) for elem in line.split()`; any failure yields
`(False, [])`. -/
def convDecs : List (List Char) → Option (List PyDecimal)
  | [] => some []
  | t :: ts =>
    match pyDecimalOfChars t, convDecs ts with
    | some d, some ds => some (d :: ds)
    | _, _ => none

def convert_line_to_decimals (line : String) : Bool × List PyDecimal :=
  match convDecs (pySplitWs line.data) with
  | none => (false, [])
  | some ds => (true, ds)

/-! ## Stdio comparison

The comparison phase of `_unsafe_execute_stdio`
(src/app/exec_py_test.py, lines 154-174), applied to the captured
stdout and the expected output. -/

/-- Judgment of one pair of corresponding stripped lines (the loop
body at lines 161-172): `none` when the pair passes, otherwise the
failure message. -/
def lineOk (o e : String) : Option String :=
  if o == e then none
  else
    match convert_line_to_decimals o with
    | (false, _) => some "output line is not all decimals"
    | (true, od) =>
      match convert_line_to_decimals e with
      | (false, _) => some "expect output line is not all decimals"
      | (true, ed) =>
        if decListEq od ed then none else some "output line decimals mismatch"

def compareLoop : List String → List String → Bool × String
  | o :: os, e :: es =>
    (match lineOk o e with
     | some m => (false, m)
     | none => compareLoop os es)
  | _, _ => (true, "")

/-- The stdout comparison of `_unsafe_execute_stdio`: strip both
sides into lines, fail on a line-count mismatch, then compare the
zipped line pairs. -/
def stdio_compare (output expect_output : String) : Bool × String :=
  let so := get_stripped_lines output
  let se := get_stripped_lines expect_output
  if so.length != se.length then (false, "output line count mismatch")
  else compareLoop so se

/-! ## Python values and equality

Values flowing through the function-call comparator
(`_unsafe_execute_fn_call`): JSON-decoded arguments and expected
outputs, and user-function return values, which may contain tuples.
`pyEq` is Python `==` on this fragment: `True == 1`, a list is never
equal to a tuple, and sequences compare element-wise. -/

inductive PyVal
  | vInt (n : Int)
  | vBool (b : Bool)
  | vStr (s : String)
  | vNone
  | vList (xs : List PyVal)
  | vTuple (xs : List PyVal)

mutual

def pyEq : PyVal → PyVal → Bool
  | .vInt a, .vInt b => a == b
  | .vInt a, .vBool b => a == (if b then 1 else 0)
  | .vBool a, .vInt b => (if a then (1 : Int) else 0) == b
  | .vBool a, .vBool b => a == b
  | .vStr a, .vStr b => a == b
  | .vNone, .vNone => true
  | .vList xs, .vList ys => pyEqList xs ys
  | .vTuple xs, .vTuple ys => pyEqList xs ys
  | _, _ => false

def pyEqList : List PyVal → List PyVal → Bool
  | [], [] => true
  | x :: xs, y :: ys => pyEq x y && pyEqList xs ys
  | _, _ => false

end

mutual

/-- Python `repr` on the modelled fragment (string escaping is not
modelled: a string renders between single quotes). -/
def pyRepr : PyVal → String
  | .vInt n => toString n
  | .vBool b => if b then "True" else "False"
  | .vStr s => "'" ++ s ++ "'"
  | .vNone => "None"
  | .vList xs => "[" ++ pyReprSeq xs ++ "]"
  | .vTuple [] => "()"
  | .vTuple [x] => "(" ++ pyRepr x ++ ",)"
  | .vTuple (x :: y :: xs) => "(" ++ pyReprSeq (x :: y :: xs) ++ ")"

def pyReprSeq : List PyVal → String
  | [] => ""
  | [x] => pyRepr x
  | x :: y :: xs => pyRepr x ++ ", " ++ pyReprSeq (y :: xs)

end

/-- Python `str` as used by the f-string `f"output {o} != expect {e}"`:
like `repr` except that a top-level string renders without quotes. -/
def pyStr : PyVal → String
  | .vStr s => s
  | v => pyRepr v

/-- The tuple-to-list coercion of `_unsafe_execute_fn_call`
(src/app/exec_py_test.py, lines 135-136): only a value that is itself
a tuple is converted; nested elements are untouched. -/
def tupleToList : PyVal → PyVal
  | .vTuple xs => .vList xs
  | v => v

/-! ## Compilation and execution model

`exec` of untrusted source into an anonymous module, `json.loads`,
and user-function calls are dynamic; each is represented by data
describing its outcome.  An exception is a (type name, message)
pair. -/

structure ExcInfo where
  name : String
  msg : String
deriving DecidableEq

/-- A Python callable, as the comparator uses one: called with
positional arguments in function-call mode, or called with patched
stdio in stdio mode (in which case its observable behaviour is the
captured stdout for a given stdin text, or an exception). -/
structure PyFunc where
  callArgs : List PyVal → Except ExcInfo PyVal
  runStdio : String → Except ExcInfo String

/-- Attributes of a `Solution` instance. -/
structure PyObject where
  attrs : List (String × PyFunc)

/-- The anonymous module produced by `exec(code, tmp_sol.__dict__)`:
its callable attributes, and what `tmp_sol.Solution()` would do —
`none` when the module has no `Solution` attribute (the access raises
`AttributeError`), `some (.error e)` when the call raises, and
`some (.ok obj)` when it yields an instance. -/
structure ExecedModule where
  attrs : List (String × PyFunc)
  solutionAttr : Option (Except ExcInfo PyObject)

/-- A source text together with the outcome of `exec`-ing it. -/
structure SourceCode where
  text : String
  execResult : Except ExcInfo ExecedModule

inductive CompiledSol
  | mod (m : ExecedModule)
  | inst (o : PyObject)

/-- Substring test, Python's `pat in s` on strings. -/
def hasSub (pat : List Char) : List Char → Bool
  | [] => pat.isEmpty
  | c :: rest => pat.isPrefixOf (c :: rest) || hasSub pat rest

/-- `compile_code` (src/app/exec_py_test.py, lines 313-331).  The
`try` block has only a `finally: pass`, so exceptions from `exec` or
from `tmp_sol.Solution()` propagate to the caller; the function never
returns `None`.  The choice between the `Solution` instance and the
bare module is the literal substring test `"class Solution" in code`
on the source text. -/
def compile_code (c : SourceCode) : Except ExcInfo CompiledSol :=
  match c.execResult with
  | .error e => .error e
  | .ok m =>
    if hasSub "class Solution".data c.text.data then
      match m.solutionAttr with
      | none => .error ⟨"AttributeError", "module 'tmp_sol' has no attribute 'Solution'"⟩
      | some (.error e) => .error e
      | some (.ok obj) => .ok (.inst obj)
    else .ok (.mod m)

/-- `get_function` (src/app/exec_py_test.py, lines 305-310):
`hasattr`/`getattr` with every exception swallowed into `None`. -/
def get_function (sol : CompiledSol) (fn_name : String) : Option PyFunc :=
  (match sol with
   | .mod m => m.attrs
   | .inst o => o.attrs).lookup fn_name

/-! ## Per-case execution -/

def excText (e : ExcInfo) : String := "[" ++ e.name ++ "] " ++ e.msg

/-- `[json.loads(line) for line in single_input.split("\n")]`; the
decoder `J` stands for `json.loads`, and the first failing line
raises. -/
def decodeArgs (J : String → Except ExcInfo PyVal) : List String → Except ExcInfo (List PyVal)
  | [] => .ok []
  | l :: ls =>
    match J l, decodeArgs J ls with
    | .error e, _ => .error e
    | .ok _, .error e => .error e
    | .ok v, .ok vs => .ok (v :: vs)

/-- `_unsafe_execute_fn_call` (src/app/exec_py_test.py, lines
125-142): decode the newline-separated arguments and the expected
value, call the function, coerce a top-level tuple to a list, compare
with Python `==`; any exception becomes `(False, "[<Exc>] <msg>")`. -/
def run_fn_call (J : String → Except ExcInfo PyVal) (fn : PyFunc)
    (single_input expect_output : String) : Bool × String :=
  match decodeArgs J ((splitNl single_input.data).map (⟨·⟩)) with
  | .error e => (false, excText e)
  | .ok args =>
    match J expect_output with
    | .error e => (false, excText e)
    | .ok exp =>
      match fn.callArgs args with
      | .error e => (false, excText e)
      | .ok out =>
        let out := tupleToList out
        if pyEq out exp then (true, "")
        else (false, "output " ++ pyStr out ++ " != expect " ++ pyStr exp)

/-- `_unsafe_execute_stdio` (src/app/exec_py_test.py, lines 145-174):
call the wrapped function with the injected stdin and captured stdout
(an exception becomes `(False, "[<Exc>] <msg>")`), then run the line
comparison. -/
def run_stdio (fn : PyFunc) (single_input expect_output : String) : Bool × String :=
  match fn.runStdio single_input with
  | .error e => (false, excText e)
  | .ok output => stdio_compare output expect_output

/-! ## The test runner (`execute_test` and its child) -/

/-- Observable effects of the test runner, used to state where the
input-length check happens relative to spawning and compiling. -/
inductive Ev
  | spawn
  | guard
  | compile
  | runTests
deriving DecidableEq

/-- Per-case loop of `_unsafe_execute` (lines 115-122): first failing
case returns `(False, "failed: " ++ msg)`. -/
def runCasesLoop (runOne : String → String → Bool × String) :
    List (String × String) → Bool × String
  | [] => (true, "")
  | (i, o) :: rest =>
    match runOne i o with
    | (true, _) => runCasesLoop runOne rest
    | (false, msg) => (false, "failed: " ++ msg)

/-- The attribute looked up: `fn_name` in function-call mode,
`"wrapped_function"` in stdio mode. -/
def targetName (fn_name : Option String) : String :=
  match fn_name with
  | some n => n
  | none => "wrapped_function"

/-- Which per-case runner the mode uses. -/
def pickRunner (J : String → Except ExcInfo PyVal) (fn_name : Option String)
    (fn : PyFunc) : String → String → Bool × String :=
  match fn_name with
  | some _ => run_fn_call J fn
  | none => run_stdio fn

/-- `_unsafe_execute` (src/app/exec_py_test.py, lines 82-122), run
inside the child.  The length check precedes the reliability guard and
compilation.  `c` stands for `code_to_compile` of the branch taken
(for stdio mode, the output of the total, exception-safe
`clean_if_name`/`make_function` rewrite).  Exceptions from
`compile_code` propagate (`.error`); the dead `compiled_sol is None`
branches of the source are unreachable and produce nothing here. -/
def unsafe_execute (J : String → Except ExcInfo PyVal) (c : SourceCode)
    (fn_name : Option String) (inputs expect_outputs : List String) :
    List Ev × Except ExcInfo (Bool × String) :=
  if inputs.length ≠ expect_outputs.length then
    ([], .ok (false, "failed: number of inputs and outputs mismatch"))
  else
    match compile_code c with
    | .error e => ([.guard, .compile], .error e)
    | .ok sol =>
      match get_function sol (targetName fn_name) with
      | none => ([.guard, .compile], .ok (false, "failed: no function defined"))
      | some fn =>
        ([.guard, .compile, .runTests],
         .ok (runCasesLoop (pickRunner J fn_name fn) (inputs.zip expect_outputs)))

/-- `_subprocess_target` (lines 67-79): any exception escaping
`_unsafe_execute` is delivered as `(False, "failed: [<Exc>] <msg>")`. -/
def subprocess_target (J : String → Except ExcInfo PyVal) (c : SourceCode)
    (fn_name : Option String) (inputs expect_outputs : List String) :
    List Ev × (Bool × String) :=
  match unsafe_execute J c fn_name inputs expect_outputs with
  | (evs, .error e) => (evs, (false, "failed: " ++ excText e))
  | (evs, .ok r) => (evs, r)

/-- How the parent's wait on the result queue resolves
(`execute_test`, lines 44-64). -/
inductive ParentOutcome
  | delivered
  | timedOutAlive
  | timedOutDead
  | raised (e : ExcInfo)

/-- `execute_test` (src/app/exec_py_test.py, lines 19-64): the parent
spawns the child unconditionally (`p.start()` precedes the queue
read), then reports the child's verdict or a timeout/exception
verdict.  `tstr` is Python's rendering of the float timeout. -/
def execute_test (J : String → Except ExcInfo PyVal) (c : SourceCode)
    (fn_name : Option String) (inputs expect_outputs : List String)
    (po : ParentOutcome) (tstr : String) : List Ev × (Bool × String) :=
  let (evs, r) := subprocess_target J c fn_name inputs expect_outputs
  let verdict := match po with
    | .delivered => r
    | .timedOutAlive => (false, "failed: subprocess timeout: " ++ tstr ++ "s")
    | .timedOutDead => (false, "failed: no result from subprocess")
    | .raised e => (false, "failed: " ++ excText e)
  (Ev.spawn :: evs, verdict)

/-! ## JavaScript / TypeScript runners

`execute_code` in src/app/exec_js.py and src/app/exec_ts.py: the
subprocess run is represented by its outcome (exit code with decoded
stdout/stderr, a timeout, or a raised exception). -/

inductive ProcOutcome
  | completed (exitCode : Int) (stdout stderr : String)
  | timedOut
  | raised (e : ExcInfo)

/-- Verdict of `execute_code` in src/app/exec_js.py (lines 24-40):
exit 0 yields `(True, stdout.strip())`; a non-zero exit yields
`(False, "failed [exit <code>]: " ++ stderr.strip())`; a timeout
kills and yields `(False, "failed: timeout")`; any other exception
yields `(False, "failed: [<Exc>] <msg>")`.  The function takes only
`(code, timeout)` and returns this two-tuple. -/
def execute_code_js (o : ProcOutcome) : Bool × String :=
  match o with
  | .completed code out err =>
    if code = 0 then (true, pyStrip out)
    else (false, "failed [exit " ++ toString code ++ "]: " ++ pyStrip err)
  | .timedOut => (false, "failed: timeout")
  | .raised e => (false, "failed: " ++ excText e)

/-- Simple average and peak telemetry (src/app/resource_monitor.py,
lines 8-13), with exact rational arithmetic in place of Python
floats. -/
structure ResourceStats where
  cpu_percent : ℚ := 0
  peak_cpu_percent : ℚ := 0
  memory_mb : ℚ := 0
  peak_memory_mb : ℚ := 0
deriving DecidableEq

/-- Verdict of `execute_code` in src/app/exec_ts.py (lines 44-68):
the same message shapes as the JS runner, but the function also
accepts `memory_limit` and returns the stats as a third component. -/
def execute_code_ts (o : ProcOutcome) (stats : ResourceStats) :
    Bool × String × ResourceStats :=
  match o with
  | .completed code out err =>
    if code = 0 then (true, pyStrip out, stats)
    else (false, "failed [exit " ++ toString code ++ "]: " ++ pyStrip err, stats)
  | .timedOut => (false, "failed: timeout", stats)
  | .raised e => (false, "failed: " ++ excText e, stats)

/-- Child of the Python code runner (src/app/exec_py_code.py, lines
80-96): `(True, "")` when `exec` of the user code completes, else
`(False, "failed: [<Exc>] <msg>")`. -/
def exec_py_code_child (r : Except ExcInfo Unit) : Bool × String :=
  match r with
  | .ok _ => (true, "")
  | .error e => (false, "failed: " ++ excText e)

/-- Parent of the Python code runner (src/app/exec_py_code.py, lines
33-53): same queue-wait structure as `execute_test`. -/
def execute_code_py (child : Bool × String) (po : ParentOutcome) (tstr : String) :
    Bool × String :=
  match po with
  | .delivered => child
  | .timedOutAlive => (false, "failed: subprocess timeout: " ++ tstr ++ "s")
  | .timedOutDead => (false, "failed: no result from subprocess")
  | .raised e => (false, "failed: " ++ excText e)

/-! ## Resource sampler

`monitor_process_resources` (src/app/resource_monitor.py, lines
16-66).  One `MonObs` per loop iteration: either a `(cpu%, rss bytes)`
reading or the process having disappeared (`psutil` raising), which
breaks the loop.  The initial discarded `cpu_percent()` reading and
the attach step precede the list.  The end of the list is the stop
event. -/

inductive MonObs
  | sample (cpu rssBytes : ℚ)
  | procGone

/-- Samples actually collected by the loop: cpu values only when
strictly positive; rss converted to MiB; collection stops at the first
failing query. -/
def collect : List MonObs → List ℚ × List ℚ
  | [] => ([], [])
  | .procGone :: _ => ([], [])
  | .sample c r :: rest =>
    ((if 0 < c then c :: (collect rest).1 else (collect rest).1),
     (r / 1048576) :: (collect rest).2)

/-- Live peak tracking: `if v > peak then peak = v`, starting at 0. -/
def peakOf (l : List ℚ) : ℚ := l.foldl (fun a x => if a < x then x else a) 0

/-- `sum / len` over collected samples, left at 0 when none were
collected. -/
def avgOf (l : List ℚ) : ℚ := if l.isEmpty then 0 else l.sum / l.length

/-- Final contents of the mutable `stats` of
`monitor_process_resources`: zeros when attaching failed (the outer
`contextlib.suppress`), otherwise averages and peaks of the collected
samples. -/
def monitor_process_resources (attached : Bool) (obs : List MonObs) : ResourceStats :=
  if !attached then {}
  else
    { cpu_percent := avgOf (collect obs).1
      peak_cpu_percent := peakOf (collect obs).1
      memory_mb := avgOf (collect obs).2
      peak_memory_mb := peakOf (collect obs).2 }

/-! ## Process killer

`kill_proc` (src/app/utils.py, lines 8-24).  A handle is running,
exited (reaped or reapable), or closed (`p.close()` already released
it; `is_alive`/`terminate` on it raise `ValueError`).  The
environment records how the process reacts to the signals. -/

inductive HandleState
  | running
  | exited
  | closed
deriving DecidableEq

structure KillEnv where
  diesOnTerm : Bool
  killRaises : Bool
  diesOnKill : Bool

/-- `kill_proc` as a transition on the handle state: only the
`os.kill` and the `p.close()` calls sit in `try/except`, so
`p.is_alive()` on a closed handle raises `ValueError` out of the
function.  When the process survives both signals, `p.close()` raises
(still running) and the exception is swallowed, leaving the handle
open. -/
def kill_proc (env : KillEnv) (h : HandleState) : Except ExcInfo HandleState :=
  match h with
  | .closed => .error ⟨"ValueError", "process object is closed"⟩
  | .exited => .ok .closed
  | .running =>
    if env.diesOnTerm then .ok .closed
    else if !env.killRaises && env.diesOnKill then .ok .closed
    else .ok .running

def exceptOk {α : Type} (r : Except ExcInfo α) : Bool :=
  match r with
  | .ok _ => true
  | .error _ => false

/-! ## Dispatcher

`evaluate` (src/app/server.py, lines 75-168).  The runner call
`fn(code=..., timeout=..., memory_limit=...)` with a three-way unpack
is modelled against each runner's signature: a keyword argument not
among the parameters raises `TypeError`, and unpacking a two-tuple
into three names raises `ValueError`; `commonShape` is the
precondition for the call to succeed. -/

structure RunnerSig where
  params : List String
  resultArity : Nat
deriving DecidableEq

/-- Signature of `execute_code` in src/app/exec_js.py, line 6. -/
def exec_js_sig : RunnerSig := ⟨["code", "timeout"], 2⟩

/-- Signature of `execute_code` in src/app/exec_py_code.py, lines 16-18. -/
def exec_py_code_sig : RunnerSig := ⟨["code", "timeout", "memory_limit"], 3⟩

/-- Signature of `execute_code` in src/app/exec_ts.py, lines 8-10. -/
def exec_ts_sig : RunnerSig := ⟨["code", "timeout", "memory_limit"], 3⟩

/-- Signature of `execute_test` in src/app/exec_py_test.py, lines 19-26. -/
def execute_test_sig : RunnerSig :=
  ⟨["code", "inputs", "expect_outputs", "fn_name", "timeout", "memory_limit"], 3⟩

/-- The keyword arguments of the dispatcher's call at
src/app/server.py, lines 89-91. -/
def dispatcherKwargs : List String := ["code", "timeout", "memory_limit"]

def commonShape (sig : RunnerSig) : Bool :=
  dispatcherKwargs.all (fun k => sig.params.contains k) && sig.resultArity == 3

/-- `CODE_EXECUTOR_MAP` (src/app/server.py, lines 81-85) with each
runner's signature and default timeout. -/
def CODE_EXECUTOR_MAP (lang : String) : Option (RunnerSig × ℚ) :=
  if lang = "javascript" then some (exec_js_sig, 3)
  else if lang = "python" then some (exec_py_code_sig, 3)
  else if lang = "typescript" then some (exec_ts_sig, 5)
  else none

inductive DispatchStep
  | invoke (lang : String)
  | refuse (msg : String)

/-- Routing logic of `evaluate` (src/app/server.py): which runner a
request reaches, or the refusal verdict; `.error` when the call to the
selected runner cannot be performed (bad signature). -/
def evaluate_route (source lang : String) (hasTest : Bool) : Except String DispatchStep :=
  if source = "human-eval" || source = "mbpp" then
    match CODE_EXECUTOR_MAP lang with
    | some (sig, _) =>
      if commonShape sig then .ok (.invoke lang)
      else .error "TypeError: execute_code() got an unexpected keyword argument 'memory_limit'"
    | none => .ok (.refuse ("not supported language: " ++ lang))
  else if source = "livecodebench" then
    if lang ≠ "python" then .ok (.refuse ("not supported language: " ++ lang))
    else if hasTest then .ok (.invoke "python-test")
    else .ok (.invoke "python")
  else .ok (.refuse ("not supported data source: " ++ source))

/-- Failure verdicts, per the spec's grammar, begin with `failed:` or
`failed [exit <code>]: `. -/
def failedPrefixed (m : String) : Bool :=
  match m.data with
  | 'f' :: 'a' :: 'i' :: 'l' :: 'e' :: 'd' :: rest =>
    match rest with
    | ':' :: _ => true
    | ' ' :: '[' :: 'e' :: 'x' :: 'i' :: 't' :: ' ' :: _ => true
    | _ => false
  | _ => false

/-! ## Concrete fixtures

Concrete instances used to evaluate the models at explicit inputs. -/

/-- A trivial `json.loads` model: every string decodes to `None`. -/
def J0 : String → Except ExcInfo PyVal := fun _ => .ok .vNone

/-- A source whose `exec` succeeds and produces an empty module. -/
def src0 : SourceCode := ⟨"print(1)", .ok ⟨[], none⟩⟩

/-- A source with a syntax error: `exec` raises `SyntaxError`. -/
def srcSyntaxErr : SourceCode :=
  ⟨"def f(:", .error ⟨"SyntaxError", "invalid syntax"⟩⟩

/-- A callable used as the `add` method of the fixtures. -/
def addFn : PyFunc := ⟨fun _ => .ok (.vInt 0), fun _ => .ok ""⟩

/-- Module of `srcDoubleSpace`: no top-level function attributes, but
a `Solution` class whose instance has an `add` method. -/
def modDoubleSpace : ExecedModule := ⟨[], some (.ok ⟨[("add", addFn)]⟩)⟩

/-- Valid Python defining a top-level class `Solution` (with two
spaces after `class`), so the module exposes `Solution` although the
literal text `"class Solution"` does not occur in the source. -/
def srcDoubleSpace : SourceCode :=
  ⟨"class  Solution:\n    def add(self, a, b):\n        return a + b",
   .ok modDoubleSpace⟩

/-- Python with the text `class Solution` only inside a comment: the
module exposes a top-level function `add` and no `Solution` class. -/
def srcCommentSolution : SourceCode :=
  ⟨"# class Solution\ndef add(a, b):\n    return a + b", .ok ⟨[("add", addFn)], none⟩⟩

/-- A LeetCode-style source: a real `class Solution` with method `add`. -/
def srcLeet : SourceCode :=
  ⟨"class Solution:\n    def add(self, a, b):\n        return a + b",
   .ok ⟨[], some (.ok ⟨[("add", addFn)]⟩)⟩⟩

/-- A decoder for the C10 witness: `"[[1]]"` decodes to `[[1]]`,
anything else to `0`. -/
def J10 : String → Except ExcInfo PyVal :=
  fun s => if s = "[[1]]" then .ok (.vList [.vList [.vInt 1]]) else .ok (.vInt 0)

/-- A function returning the nested tuple `((1,),)` regardless of its
arguments. -/
def fn10 : PyFunc := ⟨fun _ => .ok (.vTuple [.vTuple [.vInt 1]]), fun _ => .ok ""⟩

/-! # Lemmas and theorems -/

/-! ## List helpers for the strip/split analysis -/

theorem dropWhile_append_all {p : Char → Bool} :
    ∀ (a b : List Char), (∀ c ∈ a, p c = true) →
      List.dropWhile p (a ++ b) = List.dropWhile p b
  | [], _, _ => rfl
  | x :: t, b, h => by
    have hx : p x = true := h x (List.mem_cons_self x t)
    rw [List.cons_append, List.dropWhile_cons_of_pos hx]
    exact dropWhile_append_all t b (fun c hc => h c (List.mem_cons_of_mem _ hc))

theorem dropWhile_append_of_ne {p : Char → Bool} :
    ∀ (l w : List Char), l.dropWhile p ≠ [] →
      (l ++ w).dropWhile p = l.dropWhile p ++ w
  | [], _, h => absurd rfl h
  | x :: t, w, h => by
    by_cases hx : p x = true
    · rw [List.dropWhile_cons_of_pos hx] at h
      rw [List.cons_append, List.dropWhile_cons_of_pos hx,
        List.dropWhile_cons_of_pos hx]
      exact dropWhile_append_of_ne t w h
    · have hx' : ¬ (p x : Prop) := by simpa using hx
      rw [List.cons_append, List.dropWhile_cons_of_neg hx',
        List.dropWhile_cons_of_neg hx', List.cons_append]

theorem dropWhile_ne_nil_of_any {l : List Char}
    (h : l.any (fun c => !pyWs c) = true) : l.dropWhile pyWs ≠ [] := by
  intro hnil
  rw [List.dropWhile_eq_nil_iff] at hnil
  rcases List.any_eq_true.mp h with ⟨c, hc, hcw⟩
  have hw := hnil c hc
  simp only [Bool.not_eq_true'] at hcw
  rw [hcw] at hw
  exact Bool.false_ne_true hw

theorem stripChars_append_ws (l w : List Char) (hw : ∀ c ∈ w, pyWs c = true) :
    stripChars (l ++ w) = stripChars l := by
  by_cases hd : l.dropWhile pyWs = []
  · have h1 : (l ++ w).dropWhile pyWs = [] := by
      rw [List.dropWhile_eq_nil_iff]
      intro c hc
      rcases List.mem_append.mp hc with h | h
      · exact (List.dropWhile_eq_nil_iff.mp hd) c h
      · exact hw c h
    unfold stripChars
    rw [h1, hd]
  · unfold stripChars
    rw [dropWhile_append_of_ne l w hd, List.reverse_append,
      dropWhile_append_all w.reverse _
        (fun c hc => hw c (List.mem_reverse.mp hc))]

theorem stripChars_mid (a m b : List Char)
    (ha : a.dropWhile pyWs ≠ []) (hb : b.reverse.dropWhile pyWs ≠ []) :
    stripChars (a ++ m ++ b) =
      a.dropWhile pyWs ++ m ++ (b.reverse.dropWhile pyWs).reverse := by
  unfold stripChars
  rw [List.append_assoc, dropWhile_append_of_ne a (m ++ b) ha,
    List.reverse_append, List.reverse_append, List.append_assoc,
    dropWhile_append_of_ne b.reverse _ hb, List.reverse_append,
    List.reverse_append, List.reverse_reverse, List.reverse_reverse]

theorem splitNl_ne_nil : ∀ z : List Char, splitNl z ≠ []
  | [] => by simp [splitNl]
  | c :: rest => by
    by_cases hc : c = '\n'
    · simp [splitNl, hc]
    · simp only [splitNl, if_neg hc]
      cases h : splitNl rest with
      | nil => simp
      | cons g gs => simp

theorem splitNl_cons_nl (z : List Char) : splitNl ('\n' :: z) = [] :: splitNl z := by
  simp [splitNl]

theorem splitNl_cons_length (c : Char) (z : List Char) (hc : c ≠ '\n') :
    (splitNl (c :: z)).length = (splitNl z).length := by
  simp only [splitNl, if_neg hc]
  cases h : splitNl z with
  | nil => exact absurd h (splitNl_ne_nil z)
  | cons g gs => simp

theorem splitNl_append_nl : ∀ (x y : List Char),
    (splitNl (x ++ '\n' :: y)).length = (splitNl x).length + (splitNl y).length
  | [], y => by
    rw [List.nil_append, splitNl_cons_nl]
    have h1 : (splitNl ([] : List Char)).length = 1 := rfl
    simp only [List.length_cons]
    omega
  | c :: x', y => by
    by_cases hc : c = '\n'
    · subst hc
      rw [List.cons_append, splitNl_cons_nl, splitNl_cons_nl]
      simp only [List.length_cons, splitNl_append_nl x' y]
      omega
    · rw [List.cons_append, splitNl_cons_length c _ hc,
        splitNl_cons_length c x' hc, splitNl_append_nl x' y]

theorem gsl_length (s : String) :
    (get_stripped_lines s).length = (splitNl (stripChars s.data)).length := by
  unfold get_stripped_lines
  rw [List.length_map]

/-- Inserting an extra newline between two blocks, each of which has a
non-whitespace character, adds exactly one stripped line. -/
theorem gsl_length_extra_nl (p q : String)
    (hp : p.data.any (fun c => !pyWs c) = true)
    (hq : q.data.any (fun c => !pyWs c) = true) :
    (get_stripped_lines (p ++ "\n\n" ++ q)).length =
      (get_stripped_lines (p ++ "\n" ++ q)).length + 1 := by
  have hpa := dropWhile_ne_nil_of_any hp
  have hqa : q.data.reverse.dropWhile pyWs ≠ [] := by
    apply dropWhile_ne_nil_of_any
    rcases List.any_eq_true.mp hq with ⟨c, hc, hcw⟩
    exact List.any_eq_true.mpr ⟨c, List.mem_reverse.mpr hc, hcw⟩
  have hd2 : (p ++ "\n\n" ++ q).data = p.data ++ "\n\n".data ++ q.data := rfl
  have hd1 : (p ++ "\n" ++ q).data = p.data ++ "\n".data ++ q.data := rfl
  rw [gsl_length, gsl_length, hd2, hd1,
    stripChars_mid p.data "\n\n".data q.data hpa hqa,
    stripChars_mid p.data "\n".data q.data hpa hqa]
  have e2 : p.data.dropWhile pyWs ++ "\n\n".data ++
      (q.data.reverse.dropWhile pyWs).reverse =
      p.data.dropWhile pyWs ++
        ('\n' :: ('\n' :: (q.data.reverse.dropWhile pyWs).reverse)) := by
    simp [List.append_assoc]
  have e1 : p.data.dropWhile pyWs ++ "\n".data ++
      (q.data.reverse.dropWhile pyWs).reverse =
      p.data.dropWhile pyWs ++
        ('\n' :: (q.data.reverse.dropWhile pyWs).reverse) := by
    simp [List.append_assoc]
  rw [e2, e1, splitNl_append_nl, splitNl_append_nl]
  have h1 : (splitNl ('\n' :: (q.data.reverse.dropWhile pyWs).reverse)).length =
      (splitNl ((q.data.reverse.dropWhile pyWs)).reverse).length + 1 := by
    rw [splitNl_cons_nl, List.length_cons]
  omega

theorem compareLoop_self : ∀ l : List String, compareLoop l l = (true, "")
  | [] => rfl
  | o :: os => by
    have h : lineOk o o = none := by simp [lineOk]
    simp only [compareLoop, h]
    exact compareLoop_self os

theorem stdio_compare_self (e : String) : stdio_compare e e = (true, "") := by
  simp [stdio_compare, compareLoop_self]

/-- C5: Stdio round-trip law.  If the captured output equals the
expected output exactly, the single-case verdict is pass; appending
trailing whitespace to either side still passes; inserting an extra
blank line between content (a newline next to an existing one, with
non-whitespace material on both sides) on either side fails with
`output line count mismatch`. -/
theorem stdio_round_trip_law :
    (∀ e : String, stdio_compare e e = (true, "")) ∧
    (∀ e ws : String, ws.data.all pyWs = true →
      stdio_compare (e ++ ws) e = (true, "") ∧
      stdio_compare e (e ++ ws) = (true, "")) ∧
    (∀ p q : String, p.data.any (fun c => !pyWs c) = true →
        q.data.any (fun c => !pyWs c) = true →
      stdio_compare (p ++ "\n\n" ++ q) (p ++ "\n" ++ q) =
        (false, "output line count mismatch") ∧
      stdio_compare (p ++ "\n" ++ q) (p ++ "\n\n" ++ q) =
        (false, "output line count mismatch")) := by
  refine ⟨stdio_compare_self, ?_, ?_⟩
  · intro e ws hws
    have hgsl : get_stripped_lines (e ++ ws) = get_stripped_lines e := by
      unfold get_stripped_lines
      have hd : (e ++ ws).data = e.data ++ ws.data := rfl
      rw [hd, stripChars_append_ws e.data ws.data (List.all_eq_true.mp hws)]
    constructor
    · simp [stdio_compare, hgsl, compareLoop_self]
    · simp [stdio_compare, hgsl, compareLoop_self]
  · intro p q hp hq
    have hlen := gsl_length_extra_nl p q hp hq
    constructor
    · have hne : ((get_stripped_lines (p ++ "\n\n" ++ q)).length !=
          (get_stripped_lines (p ++ "\n" ++ q)).length) = true :=
        bne_iff_ne.mpr (by omega)
      simp only [stdio_compare, if_pos hne]
    · have hne : ((get_stripped_lines (p ++ "\n" ++ q)).length !=
          (get_stripped_lines (p ++ "\n\n" ++ q)).length) = true :=
        bne_iff_ne.mpr (by omega)
      simp only [stdio_compare, if_pos hne]

/-- Witness for C5 at concrete inputs. -/
theorem stdio_round_trip_law_witness :
    stdio_compare ("a" ++ " ") "a" = (true, "") ∧
    stdio_compare ("a" ++ "\n\n" ++ "b") ("a" ++ "\n" ++ "b") =
      (false, "output line count mismatch") := by
  obtain ⟨-, h2, h3⟩ := stdio_round_trip_law
  exact ⟨(h2 "a" " " (by decide)).1, (h3 "a" "b" (by decide) (by decide)).1⟩

/-- C6: stdio-mode line comparison.  A byte-equal pair passes;
otherwise both lines are parsed as whitespace-separated decimals and
compared with exact decimal equality (so `"1.0"` equals `"1"`); an
unparsable output line gives `output line is not all decimals`, an
unparsable expected line gives `expect output line is not all
decimals`, and differing decimal sequences give `output line decimals
mismatch`. -/
theorem stdio_line_comparison :
    (∀ o e : String, o = e → lineOk o e = none) ∧
    (lineOk "1.0" "1" = none) ∧
    (∀ o e : String, o ≠ e → (convert_line_to_decimals o).1 = false →
      lineOk o e = some "output line is not all decimals") ∧
    (∀ o e : String, o ≠ e → (convert_line_to_decimals o).1 = true →
      (convert_line_to_decimals e).1 = false →
      lineOk o e = some "expect output line is not all decimals") ∧
    (∀ o e : String, o ≠ e → (convert_line_to_decimals o).1 = true →
      (convert_line_to_decimals e).1 = true →
      (decListEq (convert_line_to_decimals o).2 (convert_line_to_decimals e).2 = true →
        lineOk o e = none) ∧
      (decListEq (convert_line_to_decimals o).2 (convert_line_to_decimals e).2 = false →
        lineOk o e = some "output line decimals mismatch")) := by
  refine ⟨?_, by decide, ?_, ?_, ?_⟩
  · intro o e h
    subst h
    simp [lineOk]
  · intro o e hne hco
    rcases h : convert_line_to_decimals o with ⟨bo, od⟩
    rw [h] at hco
    simp only at hco
    subst hco
    have hbe : (o == e) = false := beq_eq_false_iff_ne.mpr hne
    simp [lineOk, hbe, h]
  · intro o e hne hco hce
    rcases h : convert_line_to_decimals o with ⟨bo, od⟩
    rw [h] at hco
    simp only at hco
    subst hco
    rcases h2 : convert_line_to_decimals e with ⟨be, ed⟩
    rw [h2] at hce
    simp only at hce
    subst hce
    have hbe : (o == e) = false := beq_eq_false_iff_ne.mpr hne
    simp [lineOk, hbe, h, h2]
  · intro o e hne hco hce
    rcases h : convert_line_to_decimals o with ⟨bo, od⟩
    rw [h] at hco
    simp only at hco
    subst hco
    rcases h2 : convert_line_to_decimals e with ⟨be, ed⟩
    rw [h2] at hce
    simp only at hce
    subst hce
    have hbe : (o == e) = false := beq_eq_false_iff_ne.mpr hne
    constructor
    · intro hdq
      simp only at hdq
      simp [lineOk, hbe, h, h2, hdq]
    · intro hdq
      simp only at hdq
      simp [lineOk, hbe, h, h2, hdq]

/-- Witness for C6 at concrete line pairs. -/
theorem stdio_line_comparison_witness :
    lineOk "a" "1" = some "output line is not all decimals" ∧
    lineOk "1" "b" = some "expect output line is not all decimals" ∧
    lineOk "2" "1" = some "output line decimals mismatch" ∧
    lineOk "1.0" "1.00" = none := by
  obtain ⟨h1, h2, h3, h4, h5⟩ := stdio_line_comparison
  exact ⟨h3 "a" "1" (by decide) (by decide),
    h4 "1" "b" (by decide) (by decide) (by decide),
    (h5 "2" "1" (by decide) (by decide) (by decide)).2 (by decide),
    (h5 "1.0" "1.00" (by decide) (by decide) (by decide)).1 (by decide)⟩

/-! ## Resource sampler lemmas -/

theorem foldl_peak_ge_init : ∀ (l : List ℚ) (a : ℚ),
    a ≤ l.foldl (fun a x => if a < x then x else a) a
  | [], a => le_refl a
  | x :: l, a => by
    simp only [List.foldl_cons]
    by_cases h : a < x
    · rw [if_pos h]
      exact le_trans (le_of_lt h) (foldl_peak_ge_init l x)
    · rw [if_neg h]
      exact foldl_peak_ge_init l a

theorem foldl_peak_ge_mem : ∀ (l : List ℚ) (a x : ℚ), x ∈ l →
    x ≤ l.foldl (fun a x => if a < x then x else a) a
  | [], _, x, hx => absurd hx (List.not_mem_nil x)
  | y :: l, a, x, hx => by
    simp only [List.foldl_cons]
    rcases List.mem_cons.mp hx with rfl | hmem
    · by_cases h : a < x
      · rw [if_pos h]
        exact foldl_peak_ge_init l x
      · rw [if_neg h]
        exact le_trans (le_of_not_lt h) (foldl_peak_ge_init l a)
    · exact foldl_peak_ge_mem l _ x hmem

theorem peakOf_nonneg (l : List ℚ) : 0 ≤ peakOf l := foldl_peak_ge_init l 0

theorem peakOf_ge_mem (l : List ℚ) (x : ℚ) (hx : x ∈ l) : x ≤ peakOf l :=
  foldl_peak_ge_mem l 0 x hx

theorem listSum_nonneg : ∀ (l : List ℚ), (∀ x ∈ l, 0 ≤ x) → 0 ≤ l.sum
  | [], _ => le_refl 0
  | x :: l, h => by
    rw [List.sum_cons]
    have h1 := listSum_nonneg l (fun y hy => h y (List.mem_cons_of_mem _ hy))
    have h2 := h x (List.mem_cons_self x l)
    linarith

theorem avgOf_nonneg (l : List ℚ) (h : ∀ x ∈ l, 0 ≤ x) : 0 ≤ avgOf l := by
  unfold avgOf
  by_cases he : l.isEmpty
  · rw [if_pos he]
  · rw [if_neg he]
    exact div_nonneg (listSum_nonneg l h) (by positivity)

theorem avgOf_le_peakOf (l : List ℚ) : avgOf l ≤ peakOf l := by
  unfold avgOf
  by_cases he : l.isEmpty
  · rw [if_pos he]
    exact peakOf_nonneg l
  · rw [if_neg he]
    have hne : l ≠ [] := by simpa [List.isEmpty_iff] using he
    have hlen : 0 < (l.length : ℚ) := by
      have := List.length_pos.mpr hne
      exact_mod_cast this
    rw [div_le_iff₀ hlen]
    calc l.sum ≤ l.length • peakOf l :=
          List.sum_le_card_nsmul l (peakOf l) (fun x hx => peakOf_ge_mem l x hx)
      _ = peakOf l * l.length := by
          rw [nsmul_eq_mul]
          ring

theorem collect_mem_cpu : ∀ (obs : List MonObs), ∀ x ∈ (collect obs).1, 0 < x
  | [], x, hx => absurd hx (by simp [collect])
  | .procGone :: _, x, hx => absurd hx (by simp [collect])
  | .sample c r :: rest, x, hx => by
    simp only [collect] at hx
    by_cases hc : 0 < c
    · rw [if_pos hc] at hx
      rcases List.mem_cons.mp hx with rfl | hmem
      · exact hc
      · exact collect_mem_cpu rest x hmem
    · rw [if_neg hc] at hx
      exact collect_mem_cpu rest x hx

theorem collect_mem_rss : ∀ (obs : List MonObs),
    (∀ c r, MonObs.sample c r ∈ obs → 0 ≤ r) → ∀ x ∈ (collect obs).2, 0 ≤ x
  | [], _, x, hx => absurd hx (by simp [collect])
  | .procGone :: _, _, x, hx => absurd hx (by simp [collect])
  | .sample c r :: rest, h, x, hx => by
    simp only [collect] at hx
    rcases List.mem_cons.mp hx with rfl | hmem
    · have hr : 0 ≤ r := h c r (List.mem_cons_self _ _)
      positivity
    · exact collect_mem_rss rest
        (fun c' r' hm => h c' r' (List.mem_cons_of_mem _ hm)) x hmem

/-- C7: ResourceStats invariants.  With psutil readings modelled in
exact arithmetic (`ℚ`, so every value is a finite number) and RSS
readings non-negative, all four fields are non-negative, each peak
dominates the corresponding average (with or without samples), and
when monitoring never collects a sample — attach failure, an empty
observation run, or an immediate process disappearance — the struct
is all zeros. -/
theorem resource_stats_invariants (attached : Bool) (obs : List MonObs)
    (hrss : ∀ c r, MonObs.sample c r ∈ obs → 0 ≤ r) :
    (0 ≤ (monitor_process_resources attached obs).cpu_percent ∧
     0 ≤ (monitor_process_resources attached obs).peak_cpu_percent ∧
     0 ≤ (monitor_process_resources attached obs).memory_mb ∧
     0 ≤ (monitor_process_resources attached obs).peak_memory_mb) ∧
    (monitor_process_resources attached obs).cpu_percent ≤
      (monitor_process_resources attached obs).peak_cpu_percent ∧
    (monitor_process_resources attached obs).memory_mb ≤
      (monitor_process_resources attached obs).peak_memory_mb ∧
    ((attached = false ∨ collect obs = ([], [])) →
      monitor_process_resources attached obs = {}) := by
  cases attached with
  | false =>
    refine ⟨⟨le_refl 0, le_refl 0, le_refl 0, le_refl 0⟩, le_refl 0, le_refl 0,
      fun _ => rfl⟩
  | true =>
    have hcpu : ∀ x ∈ (collect obs).1, 0 ≤ x :=
      fun x hx => le_of_lt (collect_mem_cpu obs x hx)
    have hmem : ∀ x ∈ (collect obs).2, 0 ≤ x := collect_mem_rss obs hrss
    refine ⟨⟨avgOf_nonneg _ hcpu, peakOf_nonneg _, avgOf_nonneg _ hmem,
      peakOf_nonneg _⟩, avgOf_le_peakOf _, avgOf_le_peakOf _, ?_⟩
    intro h
    rcases h with h | h
    · exact absurd h (by simp)
    · show monitor_process_resources true obs = {}
      unfold monitor_process_resources
      rw [h]
      simp [avgOf, peakOf]

/-- Witness for C7 at a concrete observation run. -/
theorem resource_stats_invariants_witness :
    0 ≤ (monitor_process_resources true [MonObs.sample 50 1048576]).cpu_percent ∧
    (monitor_process_resources true [MonObs.sample 50 1048576]).cpu_percent ≤
      (monitor_process_resources true [MonObs.sample 50 1048576]).peak_cpu_percent := by
  have h := resource_stats_invariants true [MonObs.sample 50 1048576] (by
    intro c r hm
    simp only [List.mem_singleton, MonObs.sample.injEq] at hm
    rw [hm.2]
    norm_num)
  exact ⟨h.1.1, h.2.1⟩

/-! ## Verdict message grammar -/

theorem failedPrefixed_colon (r : String) : failedPrefixed ("failed: " ++ r) = true := rfl

theorem runCasesLoop_inv (runOne : String → String → Bool × String) :
    ∀ cs : List (String × String),
      ((runCasesLoop runOne cs).1 = true → (runCasesLoop runOne cs).2 = "") ∧
      ((runCasesLoop runOne cs).1 = false →
        failedPrefixed (runCasesLoop runOne cs).2 = true)
  | [] => ⟨fun _ => rfl, fun h => absurd h (by simp [runCasesLoop])⟩
  | (i, o) :: rest => by
    rcases hro : runOne i o with ⟨ok, msg⟩
    cases ok
    · have hred : runCasesLoop runOne ((i, o) :: rest) = (false, "failed: " ++ msg) := by
        simp only [runCasesLoop, hro]
      rw [hred]
      exact ⟨fun h => absurd h (by simp), fun _ => failedPrefixed_colon msg⟩
    · have hred : runCasesLoop runOne ((i, o) :: rest) = runCasesLoop runOne rest := by
        simp only [runCasesLoop, hro]
      rw [hred]
      exact runCasesLoop_inv runOne rest

theorem unsafe_execute_ok_msg (J : String → Except ExcInfo PyVal) (c : SourceCode)
    (fn_name : Option String) (ins outs : List String) (evs : List Ev)
    (r : Bool × String)
    (h : unsafe_execute J c fn_name ins outs = (evs, .ok r)) :
    (r.1 = true → r.2 = "") ∧ (r.1 = false → failedPrefixed r.2 = true) := by
  unfold unsafe_execute at h
  by_cases hlen : ins.length ≠ outs.length
  · rw [if_pos hlen] at h
    have h2 := congrArg Prod.snd h
    simp only [Except.ok.injEq] at h2
    rw [← h2]
    exact ⟨fun hc => absurd hc (by simp), fun _ => rfl⟩
  · rw [if_neg hlen] at h
    cases hcc : compile_code c with
    | error e =>
      rw [hcc] at h
      dsimp only at h
      have h2 := congrArg Prod.snd h
      simp at h2
    | ok sol =>
      rw [hcc] at h
      dsimp only at h
      cases hg : get_function sol (targetName fn_name) with
      | none =>
        rw [hg] at h
        dsimp only at h
        have h2 := congrArg Prod.snd h
        simp only [Except.ok.injEq] at h2
        rw [← h2]
        exact ⟨fun hc => absurd hc (by simp), fun _ => rfl⟩
      | some fn =>
        rw [hg] at h
        dsimp only at h
        have h2 := congrArg Prod.snd h
        simp only [Except.ok.injEq] at h2
        rw [← h2]
        exact runCasesLoop_inv (pickRunner J fn_name fn) (ins.zip outs)

theorem subprocess_target_msg (J : String → Except ExcInfo PyVal) (c : SourceCode)
    (fn_name : Option String) (ins outs : List String) :
    ((subprocess_target J c fn_name ins outs).2.1 = true →
      (subprocess_target J c fn_name ins outs).2.2 = "") ∧
    ((subprocess_target J c fn_name ins outs).2.1 = false →
      failedPrefixed (subprocess_target J c fn_name ins outs).2.2 = true) := by
  unfold subprocess_target
  rcases hue : unsafe_execute J c fn_name ins outs with ⟨evs, res⟩
  cases res with
  | error e => exact ⟨fun hc => Bool.noConfusion hc, fun _ => failedPrefixed_colon _⟩
  | ok r => exact unsafe_execute_ok_msg J c fn_name ins outs evs r hue

/-- C3 (amended): the Python runners return `("", true)`-style
verdicts — empty message exactly on success — and every failure
message carries the `failed:` (or `failed [exit <code>]:`) prefix; but
the JS/TS runners return the child's **trimmed stdout** as the success
message, and the dispatcher's refusals (`not supported language/data
source: ...`) do not carry the `failed:` prefix. -/
theorem verdict_message_grammar :
    (∀ (J : String → Except ExcInfo PyVal) (c : SourceCode) (fn_name : Option String)
        (ins outs : List String) (po : ParentOutcome) (tstr : String),
      ((execute_test J c fn_name ins outs po tstr).2.1 = true →
        (execute_test J c fn_name ins outs po tstr).2.2 = "") ∧
      ((execute_test J c fn_name ins outs po tstr).2.1 = false →
        failedPrefixed (execute_test J c fn_name ins outs po tstr).2.2 = true)) ∧
    (∀ (r : Except ExcInfo Unit) (po : ParentOutcome) (tstr : String),
      ((execute_code_py (exec_py_code_child r) po tstr).1 = true →
        (execute_code_py (exec_py_code_child r) po tstr).2 = "") ∧
      ((execute_code_py (exec_py_code_child r) po tstr).1 = false →
        failedPrefixed (execute_code_py (exec_py_code_child r) po tstr).2 = true)) ∧
    (∀ o : ProcOutcome, (execute_code_js o).1 = false →
      failedPrefixed (execute_code_js o).2 = true) ∧
    (∀ out err : String, execute_code_js (.completed 0 out err) = (true, pyStrip out)) ∧
    (∀ (o : ProcOutcome) (st : ResourceStats),
      ((execute_code_ts o st).1 = false →
        failedPrefixed (execute_code_ts o st).2.1 = true) ∧
      (∀ out err, execute_code_ts (.completed 0 out err) st = (true, pyStrip out, st))) ∧
    (∀ (source lang : String) (t : Bool) (m : String),
      evaluate_route source lang t = .ok (.refuse m) → failedPrefixed m = false) := by
  refine ⟨?_, ?_, ?_, ?_, ?_, ?_⟩
  · intro J c fn_name ins outs po tstr
    cases po with
    | delivered => exact subprocess_target_msg J c fn_name ins outs
    | timedOutAlive => exact ⟨fun h => Bool.noConfusion h, fun _ => rfl⟩
    | timedOutDead => exact ⟨fun h => Bool.noConfusion h, fun _ => rfl⟩
    | raised e => exact ⟨fun h => Bool.noConfusion h, fun _ => rfl⟩
  · intro r po tstr
    cases po with
    | delivered =>
      cases r with
      | ok u => exact ⟨fun _ => rfl, fun h => Bool.noConfusion h⟩
      | error e => exact ⟨fun h => Bool.noConfusion h, fun _ => rfl⟩
    | timedOutAlive => exact ⟨fun h => Bool.noConfusion h, fun _ => rfl⟩
    | timedOutDead => exact ⟨fun h => Bool.noConfusion h, fun _ => rfl⟩
    | raised e => exact ⟨fun h => Bool.noConfusion h, fun _ => rfl⟩
  · intro o h
    cases o with
    | completed code out err =>
      simp only [execute_code_js] at h ⊢
      by_cases hcode : code = 0
      · rw [if_pos hcode] at h
        simp at h
      · rw [if_neg hcode] at h ⊢
        rfl
    | timedOut => rfl
    | raised e => rfl
  · intro out err
    rfl
  · intro o st
    constructor
    · intro h
      cases o with
      | completed code out err =>
        simp only [execute_code_ts] at h ⊢
        by_cases hcode : code = 0
        · rw [if_pos hcode] at h
          simp at h
        · rw [if_neg hcode] at h ⊢
          rfl
      | timedOut => rfl
      | raised e => rfl
    · intro out err
      rfl
  · intro source lang t m h
    unfold evaluate_route at h
    split at h
    · split at h
      · split at h
        · simp at h
        · simp at h
      · simp only [Except.ok.injEq, DispatchStep.refuse.injEq] at h
        subst h
        rfl
    · split at h
      · split at h
        · simp only [Except.ok.injEq, DispatchStep.refuse.injEq] at h
          subst h
          rfl
        · split at h <;> simp at h
      · simp only [Except.ok.injEq, DispatchStep.refuse.injEq] at h
        subst h
        rfl

/-- C3 counterexample: a successful JS/TS run returns the trimmed
stdout as the message, not the empty string (the spec's own scenario 6
expects `status=true, msg="hi"`), contradicting "the verdict message
is the empty string when status is true". -/
theorem verdict_message_grammar_cx :
    (execute_code_js (.completed 0 "hi\n" "")).1 = true ∧
    (execute_code_js (.completed 0 "hi\n" "")).2 = "hi" ∧
    (execute_code_js (.completed 0 "hi\n" "")).2 ≠ "" := by decide

/-- Witness for C3 at concrete inputs. -/
theorem verdict_message_grammar_witness :
    failedPrefixed (execute_test J0 src0 none ["a"] [] .delivered "3.0").2.2 = true ∧
    failedPrefixed "not supported language: go" = false := by
  obtain ⟨h1, h2, h3, h4, h5, h6⟩ := verdict_message_grammar
  exact ⟨(h1 J0 src0 none ["a"] [] .delivered "3.0").2 (by decide),
    h6 "human-eval" "go" false "not supported language: go" rfl⟩

/-- C1 (code bug): the Python and TypeScript runners have the common
shape (they accept `memory_limit` and return a three-tuple), but the
JavaScript runner takes only `(code, timeout)` and returns a pair, so
the dispatcher's call `fn(code=…, timeout=…, memory_limit=…)` with a
three-way unpack raises `TypeError` for every JavaScript request. -/
theorem dispatcher_runner_shape_bug :
    commonShape exec_py_code_sig = true ∧
    commonShape exec_ts_sig = true ∧
    commonShape execute_test_sig = true ∧
    exec_js_sig.params.contains "memory_limit" = false ∧
    exec_js_sig.resultArity = 2 ∧
    commonShape exec_js_sig = false ∧
    evaluate_route "human-eval" "javascript" false =
      .error "TypeError: execute_code() got an unexpected keyword argument 'memory_limit'" :=
  ⟨rfl, rfl, rfl, rfl, rfl, rfl, rfl⟩

/-- C2 (code bug): `compile_code` has no `except` clause (only
`try/finally`), so a compile failure propagates as the original
exception and the child reports `failed: [<ExceptionName>] <msg>`;
the verdict is never `failed: compile error` (that branch guards an
unreachable `None`). -/
theorem compile_failure_diagnostic (J : String → Except ExcInfo PyVal)
    (c : SourceCode) (e : ExcInfo) (fn_name : Option String)
    (ins outs : List String) (hlen : ins.length = outs.length)
    (hc : c.execResult = .error e) :
    (subprocess_target J c fn_name ins outs).2 = (false, "failed: " ++ excText e) ∧
    (subprocess_target J c fn_name ins outs).2 ≠ (false, "failed: compile error") := by
  have hcc : compile_code c = .error e := by
    unfold compile_code
    rw [hc]
  have hmain : (subprocess_target J c fn_name ins outs).2 =
      (false, "failed: " ++ excText e) := by
    unfold subprocess_target unsafe_execute
    rw [if_neg (by omega : ¬ ins.length ≠ outs.length), hcc]
  refine ⟨hmain, ?_⟩
  rw [hmain]
  intro hbad
  have h2 : ("failed: " ++ excText e) = "failed: compile error" := by
    simpa using hbad
  have h9 : ("failed: " ++ excText e).data.take 9 = "failed: [".data := rfl
  rw [h2] at h9
  exact absurd h9 (by decide)

/-- Witness for C2: a syntax error surfaces as
`failed: [SyntaxError] invalid syntax`. -/
theorem compile_failure_diagnostic_witness :
    (subprocess_target J0 srcSyntaxErr (some "f") ["1"] ["1"]).2 =
      (false, "failed: [SyntaxError] invalid syntax") :=
  (compile_failure_diagnostic J0 srcSyntaxErr ⟨"SyntaxError", "invalid syntax"⟩
    (some "f") ["1"] ["1"] rfl rfl).1

/-- C4 counterexample: on a request with mismatched input/output list
lengths the runner still spawns the child — `p.start()` precedes the
length check, which runs inside the child — so "without spawning a
child process" is false (the verdict itself is as claimed). -/
theorem length_mismatch_spawns_cx :
    (execute_test J0 src0 none ["a"] [] .delivered "3.0").1 = [Ev.spawn] ∧
    Ev.spawn ∈ (execute_test J0 src0 none ["a"] [] .delivered "3.0").1 ∧
    (execute_test J0 src0 none ["a"] [] .delivered "3.0").2 =
      (false, "failed: number of inputs and outputs mismatch") := by
  refine ⟨rfl, ?_, rfl⟩
  exact List.mem_singleton.mpr rfl

/-- C4 (amended): a length mismatch yields the claimed verdict without
compiling the user code (the trace is exactly `[spawn]`: no guard, no
compile, no test run), but the check happens inside the spawned child,
so a child process is spawned. -/
theorem length_mismatch_in_child (J : String → Except ExcInfo PyVal) (c : SourceCode)
    (fn_name : Option String) (ins outs : List String) (tstr : String)
    (h : ins.length ≠ outs.length) :
    execute_test J c fn_name ins outs .delivered tstr =
      ([Ev.spawn], (false, "failed: number of inputs and outputs mismatch")) := by
  unfold execute_test subprocess_target unsafe_execute
  rw [if_pos h]

/-- Witness for C4 at a concrete mismatched request. -/
theorem length_mismatch_in_child_witness :
    execute_test J0 src0 none ["a"] ["b", "c"] .delivered "3.0" =
      ([Ev.spawn], (false, "failed: number of inputs and outputs mismatch")) :=
  length_mismatch_in_child J0 src0 none ["a"] ["b", "c"] "3.0" (by decide)

/-- C8 counterexample: on an already-closed handle the first statement
`p.is_alive()` sits outside any `try`, so `kill_proc` raises
`ValueError` — the function is neither total over handle states nor
idempotent (a first call that closes the handle makes a second call
raise). -/
theorem kill_proc_closed_raises_cx :
    kill_proc ⟨true, false, true⟩ .closed =
      .error ⟨"ValueError", "process object is closed"⟩ ∧
    exceptOk (kill_proc ⟨true, false, true⟩ .closed) = false :=
  ⟨rfl, rfl⟩

/-- C8 (amended): `kill_proc` never raises on a handle that has not
been closed (running or exited, whatever the process does in response
to the signals), but after a call that closed the handle a second call
raises `ValueError` from `p.is_alive()`. -/
theorem kill_proc_no_raise_unclosed (env : KillEnv) (h : HandleState)
    (hne : h ≠ .closed) :
    exceptOk (kill_proc env h) = true ∧
    (kill_proc env h = .ok .closed → exceptOk (kill_proc env .closed) = false) := by
  constructor
  · cases h with
    | closed => exact absurd rfl hne
    | exited => rfl
    | running =>
      unfold kill_proc
      by_cases h1 : env.diesOnTerm = true
      · rw [if_pos h1]
        rfl
      · rw [if_neg h1]
        by_cases h2 : (!env.killRaises && env.diesOnKill) = true
        · rw [if_pos h2]
          rfl
        · rw [if_neg h2]
          rfl
  · intro _
    rfl

/-- Witness for C8: no raise on a running handle; raise after close. -/
theorem kill_proc_no_raise_unclosed_witness :
    exceptOk (kill_proc ⟨false, false, false⟩ .running) = true ∧
    exceptOk (kill_proc ⟨true, true, true⟩ .closed) = false :=
  ⟨(kill_proc_no_raise_unclosed ⟨false, false, false⟩ .running (by decide)).1,
   (kill_proc_no_raise_unclosed ⟨true, true, true⟩ .exited (by decide)).2 rfl⟩

/-- C9 counterexample: the `Solution` choice is the literal substring
test `"class Solution" in code`, not whether the module exposes a
top-level class `Solution`.  `srcDoubleSpace` (written `class␣␣Solution:`,
valid Python) exposes `Solution` with method `add`, yet the comparator
uses the bare module and fails with `no function defined`; conversely
`srcCommentSolution` only mentions `class Solution` in a comment, yet
`compile_code` attempts `tmp_sol.Solution()` and raises
`AttributeError` instead of using the module attribute `add`. -/
theorem solution_selection_cx :
    srcDoubleSpace.execResult = .ok modDoubleSpace ∧
    modDoubleSpace.solutionAttr = some (.ok ⟨[("add", addFn)]⟩) ∧
    hasSub "class Solution".data srcDoubleSpace.text.data = false ∧
    compile_code srcDoubleSpace = .ok (.mod modDoubleSpace) ∧
    get_function (.mod modDoubleSpace) "add" = none ∧
    (subprocess_target J0 srcDoubleSpace (some "add") ["1"] ["1"]).2 =
      (false, "failed: no function defined") ∧
    srcCommentSolution.execResult = .ok ⟨[("add", addFn)], none⟩ ∧
    hasSub "class Solution".data srcCommentSolution.text.data = true ∧
    compile_code srcCommentSolution =
      .error ⟨"AttributeError", "module 'tmp_sol' has no attribute 'Solution'"⟩ :=
  ⟨rfl, rfl, rfl, rfl, rfl, rfl, rfl, rfl, rfl⟩

/-- C9 (amended): the comparator instantiates `Solution` and looks the
function up on the instance exactly when the literal substring
`"class Solution"` occurs in the compiled source text (raising
`AttributeError` when the attribute is then missing); otherwise it
looks the function up among the module attributes. -/
theorem solution_selection_by_substring (c : SourceCode) (m : ExecedModule)
    (hm : c.execResult = .ok m) :
    (hasSub "class Solution".data c.text.data = false →
      compile_code c = .ok (.mod m) ∧
      ∀ fn_name, get_function (.mod m) fn_name = m.attrs.lookup fn_name) ∧
    (∀ obj, hasSub "class Solution".data c.text.data = true →
      m.solutionAttr = some (.ok obj) →
      compile_code c = .ok (.inst obj) ∧
      ∀ fn_name, get_function (.inst obj) fn_name = obj.attrs.lookup fn_name) ∧
    (hasSub "class Solution".data c.text.data = true → m.solutionAttr = none →
      compile_code c =
        .error ⟨"AttributeError", "module 'tmp_sol' has no attribute 'Solution'"⟩) := by
  refine ⟨?_, ?_, ?_⟩
  · intro hs
    refine ⟨?_, fun fn_name => rfl⟩
    unfold compile_code
    rw [hm]
    simp [hs]
  · intro obj hs hsol
    refine ⟨?_, fun fn_name => rfl⟩
    unfold compile_code
    rw [hm]
    simp [hs, hsol]
  · intro hs hsol
    unfold compile_code
    rw [hm]
    simp [hs, hsol]

/-- Witness for C9: the module path on `srcDoubleSpace`, the instance
path on `srcLeet`. -/
theorem solution_selection_by_substring_witness :
    compile_code srcDoubleSpace = .ok (.mod modDoubleSpace) ∧
    compile_code srcLeet = .ok (.inst ⟨[("add", addFn)]⟩) :=
  ⟨((solution_selection_by_substring srcDoubleSpace modDoubleSpace rfl).1
      (by decide)).1,
   ((solution_selection_by_substring srcLeet ⟨[], some (.ok ⟨[("add", addFn)]⟩)⟩
      rfl).2.1 ⟨[("add", addFn)]⟩ (by decide) rfl).1⟩

/-- C10: the tuple-to-list coercion of `_unsafe_execute_fn_call` is
shallow: a top-level tuple becomes a list with its elements untouched,
any other value is unchanged; hence a function returning a nested
tuple compares unequal (Python `==` never equates a tuple with a list)
to an expected value with a list in that position, and the case
fails. -/
theorem tuple_coercion_shallow :
    (∀ xs : List PyVal, tupleToList (.vTuple xs) = .vList xs) ∧
    (∀ v : PyVal, (∀ xs, v ≠ .vTuple xs) → tupleToList v = v) ∧
    (∀ (J : String → Except ExcInfo PyVal) (fn : PyFunc) (input expect : String)
        (args : List PyVal) (inner rest : List PyVal),
      decodeArgs J ((splitNl input.data).map (fun l => (⟨l⟩ : String))) = .ok args →
      J expect = .ok (.vList (.vList inner :: rest)) →
      fn.callArgs args = .ok (.vTuple (.vTuple inner :: rest)) →
      run_fn_call J fn input expect =
        (false, "output " ++ pyStr (.vList (.vTuple inner :: rest)) ++
          " != expect " ++ pyStr (.vList (.vList inner :: rest)))) := by
  refine ⟨fun xs => rfl, ?_, ?_⟩
  · intro v hv
    cases v with
    | vTuple xs => exact absurd rfl (hv xs)
    | vInt n => rfl
    | vBool b => rfl
    | vStr s => rfl
    | vNone => rfl
    | vList xs => rfl
  · intro J fn input expect args inner rest h1 h2 h3
    have hpe : pyEq (.vList (.vTuple inner :: rest)) (.vList (.vList inner :: rest))
        = false := rfl
    simp only [run_fn_call, h1, h2, h3, tupleToList, hpe]
    simp

/-- Witness for C10 at a concrete nested-tuple return. -/
theorem tuple_coercion_shallow_witness :
    run_fn_call J10 fn10 "0" "[[1]]" =
      (false, "output " ++ pyStr (.vList [.vTuple [.vInt 1]]) ++
        " != expect " ++ pyStr (.vList [.vList [.vInt 1]])) :=
  tuple_coercion_shallow.2.2 J10 fn10 "0" "[[1]]" [.vInt 0] [.vInt 1] [] rfl rfl rfl

end CodeEval
